import Mathlib

/-!
Shallow embedding of the Game of Life engine (`src/game.rs`) and proofs of
the specification claims.

Modelling conventions:
* `u16` coordinate values are embedded as `Nat`; Rust's `saturating_sub(1)`
  on `u16` is `Nat` subtraction, `saturating_add(1)` is `min (· + 1) 65535`,
  and an `as u16` cast of a `usize` is `% 65536`; the `as u8` cast of the
  neighbour count is `% 256`.
* `Vec<Vec<Cell>>` is `List (List Cell)`; in-place mutation through a
  mutable reference becomes explicit state passing (the mutating methods
  return the new `Game` next to their `Option<()>` result).
* A Rust panic (out-of-bounds index `self.cells[0]`) is modelled by an
  `Option` result: `none` means the call panics.
-/

inductive CellKind where
  | Alive : CellKind
  | Dead : CellKind
deriving DecidableEq, Repr

/-- Embeds `struct Cell { x: u16, y: u16, kind: CellKind }`. -/
structure Cell where
  x : Nat
  y : Nat
  kind : CellKind
deriving DecidableEq, Repr

/-- Embeds `Cell::is_alive`. -/
def Cell.is_alive (c : Cell) : Bool :=
  match c.kind with
  | CellKind.Alive => true
  | CellKind.Dead => false

/-- Embeds `Cell::new` (a Dead cell at the given coordinates). -/
def Cell.new (x y : Nat) : Cell :=
  { x := x, y := y, kind := CellKind.Dead }

/-- Embeds `Cell::new_alive`. -/
def Cell.new_alive (x y : Nat) : Cell :=
  { x := x, y := y, kind := CellKind.Alive }

/-- Embeds `Cell::live` (sets the kind to Alive, keeping the coordinates). -/
def Cell.live (c : Cell) : Cell :=
  { c with kind := CellKind.Alive }

/-- Embeds `Cell::die` (sets the kind to Dead, keeping the coordinates). -/
def Cell.die (c : Cell) : Cell :=
  { c with kind := CellKind.Dead }

/-- Embeds `struct Game { cells: Vec<Vec<Cell>> }`. -/
structure Game where
  cells : List (List Cell)
deriving DecidableEq, Repr

/-- Embeds `Game::with_cells`. -/
def Game.with_cells (cells : List (List Cell)) : Game :=
  { cells := cells }

/-- Embeds `Game::new`: for `y in 0..height`, for `x in 0..width`,
push `Cell::new(x, y)`. -/
def Game.new (width height : Nat) : Game :=
  Game.with_cells
    ((List.range height).map (fun y => (List.range width).map (fun x => Cell.new x y)))

/-- Embeds `Game::cells()`: row-major enumeration pushing
`(cell, (x as u16, y as u16))` for every cell. -/
def Game.cellsList (g : Game) : List (Cell × Nat × Nat) :=
  (g.cells.mapIdx (fun y row =>
    row.mapIdx (fun x cell => (cell, x % 65536, y % 65536)))).flatten

/-- Embeds `Game::find_cell_at_pos_mut` as a read: `self.cells.get_mut(y)?`
then `row.get_mut(x)`. -/
def Game.find_cell_at_pos (g : Game) (x y : Nat) : Option Cell :=
  (g.cells[y]?).bind (fun row => row[x]?)

/-- Updates the element at an index if present, the pure counterpart of
mutating through `get_mut`. -/
def listUpdate {α : Type} (l : List α) (i : Nat) (f : α → α) : List α :=
  match l[i]? with
  | none => l
  | some a => l.set i (f a)

/-- Embeds `Game::revive_cell_at_pos`: find the cell (propagating `None`),
call `live` on it. The returned pair is (the `Option<()>` result, the game
state after the call). -/
def Game.revive_cell_at_pos (g : Game) (x y : Nat) : Option Unit × Game :=
  match g.find_cell_at_pos x y with
  | none => (none, g)
  | some _ => (some (), Game.with_cells (listUpdate g.cells y (fun row => listUpdate row x Cell.live)))

/-- Embeds `Game::kill_cell_at_pos`: find the cell (propagating `None`),
call `die` on it. -/
def Game.kill_cell_at_pos (g : Game) (x y : Nat) : Option Unit × Game :=
  match g.find_cell_at_pos x y with
  | none => (none, g)
  | some _ => (some (), Game.with_cells (listUpdate g.cells y (fun row => listUpdate row x Cell.die)))

/-- Embeds `Game::resize_if_larger`. `self.cells[0]` panics when there are
no rows, modelled by returning `none`. `self.cells.len() as u16` and
`self.cells[0].len() as u16` are truncating casts, hence `% 65536`; the
loops `old_height..height`, `0..old_width` and `old_width..width` run over
`u16` ranges; `y as u16` in the width pass is again `% 65536`. -/
def Game.resize_if_larger (g : Game) (width height : Nat) : Option Game :=
  match g.cells[0]? with
  | none => none
  | some row0 =>
    let old_height := g.cells.length % 65536
    let old_width := row0.length % 65536
    let cells1 :=
      if old_height < height then
        g.cells ++ (List.range' old_height (height - old_height)).map
          (fun y => (List.range old_width).map (fun x => Cell.new x y))
      else g.cells
    let cells2 :=
      if old_width < width then
        cells1.mapIdx (fun y row =>
          row ++ (List.range' old_width (width - old_width)).map
            (fun x => Cell.new x (y % 65536)))
      else cells1
    some (Game.with_cells cells2)

/-- Embeds `slice_until`: `a.get(from..)` (which is `Some` exactly when
`from <= a.len()`), then take at most `until.min(a.len())` elements of the
resulting subslice. -/
def slice_until {α : Type} (a : List α) (lo untilN : Nat) : Option (List α) :=
  if lo ≤ a.length then
    let d := a.drop lo
    some (d.take (min untilN d.length))
  else none

/-- Embeds `slice_len_2d`: index row `y_index`, slice it with `slice_until`,
and count the elements passing the filter (0 when either lookup fails). -/
def slice_len_2d {α : Type} (a : List (List α)) (y_index lo untilN : Nat)
    (filter : α → Bool) : Nat :=
  match a[y_index]? with
  | none => 0
  | some row =>
    match slice_until row lo untilN with
    | none => 0
    | some s => (s.filter filter).length

/-- Embeds `Game::get_neighbours_count_at_pos`. Saturating `u16`
arithmetic: `y.saturating_sub(1)` is `Nat` subtraction, `y.saturating_add(1)`
is `min (y + 1) 65535`; the final `as u8` cast is `% 256`. The current row
excludes the centre cell by comparing its stored coordinates `(c.x, c.y)`
with `(x, y)`. -/
def Game.get_neighbours_count_at_pos (g : Game) (x y : Nat) : Nat :=
  let prev_y := y - 1
  let current_y := y
  let next_y := min (y + 1) 65535
  let prev_x := x - 1
  let next_x := min (x + 1) 65535
  let untilN := next_x - prev_x + 1
  let filter := fun (c : Cell) => c.is_alive
  let prev_count :=
    if prev_y ≠ current_y then slice_len_2d g.cells prev_y prev_x untilN filter else 0
  let current_count := slice_len_2d g.cells current_y prev_x untilN
    (fun c => c.is_alive && !(c.x == x && c.y == y))
  let next_count := slice_len_2d g.cells next_y prev_x untilN filter
  (prev_count + current_count + next_count) % 256

/-- The match in `Game::tick` on `(cell.is_alive(), neighbours_count)`:
the arms `(true, 2..=3) | (false, 3)` give `Cell::new_alive(x, y)` and the
catch-all arms give `Cell::new(x, y)`. -/
def tickCell (alive : Bool) (neighbours_count : Nat) (xu yu : Nat) : Cell :=
  match alive, neighbours_count with
  | true, 2 => Cell.new_alive xu yu
  | true, 3 => Cell.new_alive xu yu
  | false, 3 => Cell.new_alive xu yu
  | _, _ => Cell.new xu yu

/-- Embeds `Game::tick`: build a whole new nested vector from the old one
(`x as u16` and `y as u16` are `% 65536`, see `tickCell` for the match),
then replace `self.cells` with it. -/
def Game.tick (g : Game) : Game :=
  Game.with_cells (g.cells.mapIdx (fun y row =>
    row.mapIdx (fun x cell =>
      let xu := x % 65536
      let yu := y % 65536
      let neighbours_count := g.get_neighbours_count_at_pos xu yu
      tickCell cell.is_alive neighbours_count xu yu)))

/-- Number of rows of the grid. -/
def Game.height (g : Game) : Nat := g.cells.length

/-- Length of the first row (0 for a grid with no rows); for a rectangular
grid this is the common row length. -/
def Game.width (g : Game) : Nat := g.cells.head?.elim 0 List.length

/-- All rows have the common length `g.width`. -/
def Game.rectangular (g : Game) : Prop :=
  ∀ row ∈ g.cells, row.length = g.width

instance (g : Game) : Decidable g.rectangular :=
  inferInstanceAs (Decidable (∀ row ∈ g.cells, row.length = g.width))

/-- The cell-coordinate invariant: every stored cell's `(x, y)` fields
equal its column and row indices. -/
def Game.coordInv (g : Game) : Prop :=
  ∀ (y : Nat) (row : List Cell), g.cells[y]? = some row →
    ∀ (x : Nat) (c : Cell), row[x]? = some c → c.x = x ∧ c.y = y

/-- Whether the grid holds an Alive cell at position `(x, y)` (false off
the grid). -/
def Game.aliveAt (g : Game) (x y : Nat) : Bool :=
  (g.find_cell_at_pos x y).elim false Cell.is_alive

/-- The clamped 3-by-3 neighbourhood of `(x, y)` in a `w`-by-`h` grid,
written from the specification: positions `(i, j)` with
`i ∈ [max 0 (x-1), min (w-1) (x+1)]`, `j ∈ [max 0 (y-1), min (h-1) (y+1)]`
and `(i, j) ≠ (x, y)`. -/
def specWindow (x y w h : Nat) : List (Nat × Nat) :=
  ((List.range' (y - 1) (min (h - 1) (y + 1) + 1 - (y - 1))).flatMap (fun j =>
    (List.range' (x - 1) (min (w - 1) (x + 1) + 1 - (x - 1))).map (fun i => (i, j)))).filter
    (fun p => decide (p ≠ (x, y)))

/-- Specification-side neighbour count: the number of Alive cells on the
clamped neighbourhood `specWindow`. -/
def Game.neighbourCountSpec (g : Game) (x y : Nat) : Nat :=
  ((specWindow x y g.width g.height).filter (fun p => g.aliveAt p.1 p.2)).length

/-- A grid is all-Dead when every stored cell is Dead. -/
def Game.allDead (g : Game) : Prop :=
  ∀ (x y : Nat) (c : Cell), g.find_cell_at_pos x y = some c → c.is_alive = false

theorem listUpdate_length {α : Type} (l : List α) (i : Nat) (f : α → α) :
    (listUpdate l i f).length = l.length := by
  unfold listUpdate
  cases h : l[i]? with
  | none => rfl
  | some a => simp [List.length_set]

theorem getElem?_listUpdate_self {α : Type} {l : List α} {i : Nat} {f : α → α} {a : α}
    (h : l[i]? = some a) : (listUpdate l i f)[i]? = some (f a) := by
  unfold listUpdate
  rw [h]
  have hi : i < l.length := (List.getElem?_eq_some_iff.mp h).1
  rw [List.getElem?_set_eq_of_lt _ (by simpa using hi)]

theorem getElem?_listUpdate_ne {α : Type} {l : List α} {i j : Nat} {f : α → α}
    (h : i ≠ j) : (listUpdate l i f)[j]? = l[j]? := by
  unfold listUpdate
  cases hl : l[i]? with
  | none => rfl
  | some a => exact List.getElem?_set_ne h

theorem filter_take_drop_eq_countP_range' {α : Type} (p : α → Bool) :
    ∀ (b a : Nat) (l : List α),
      (((l.drop a).take b).filter p).length
        = (List.range' a b).countP (fun i => l[i]?.elim false p) := by
  intro b
  induction b with
  | zero =>
    intro a l
    simp
  | succ n ih =>
    intro a l
    cases h : l[a]? with
    | none =>
      have hlen : l.length ≤ a := List.getElem?_eq_none_iff.mp h
      rw [List.drop_eq_nil_of_le hlen]
      simp only [List.take_nil, List.filter_nil, List.length_nil]
      symm
      rw [List.countP_eq_zero]
      intro i hi
      have hmem := List.mem_range'_1.mp hi
      have : l[i]? = none := List.getElem?_eq_none (le_trans hlen hmem.1)
      simp [this]
    | some c =>
      have hlt : a < l.length := (List.getElem?_eq_some_iff.mp h).1
      have hca : l[a] = c := (List.getElem?_eq_some_iff.mp h).2
      rw [List.drop_eq_getElem_cons hlt, List.take_succ_cons, List.range'_succ,
        List.countP_cons]
      rw [hca, h]
      cases hp : p c with
      | true => simp [List.filter_cons, hp, ih (a + 1) l, Nat.add_comm]
      | false => simp [List.filter_cons, hp, ih (a + 1) l]

theorem countP_range'_drop (p : Nat → Bool) (a m n : Nat) (hmn : m ≤ n)
    (hf : ∀ i, a + m ≤ i → p i = false) :
    (List.range' a n).countP p = (List.range' a m).countP p := by
  have hsplit : List.range' a m ++ List.range' (a + m) (n - m) = List.range' a n := by
    have h0 := List.range'_append a m (n - m) 1
    rw [Nat.one_mul] at h0
    rw [h0]
    congr 1
    omega
  rw [← hsplit, List.countP_append]
  have h2 : (List.range' (a + m) (n - m)).countP p = 0 := by
    rw [List.countP_eq_zero]
    intro i hi
    have hmem := List.mem_range'_1.mp hi
    simp [hf i hmem.1]
  omega

theorem countP_eq_countP_range {α : Type} (p : α → Bool) (L : List α) :
    L.countP p = (List.range L.length).countP (fun i => L[i]?.elim false p) := by
  induction L with
  | nil => simp
  | cons a t ih =>
    rw [List.length_cons, List.range_succ_eq_map, List.countP_cons, List.countP_cons,
      List.countP_map]
    simp only [List.getElem?_cons_zero, Option.elim]
    rw [ih]
    congr 1
    apply List.countP_congr
    intro i _
    cases h : t[i]? <;> simp [h]

theorem countP_mapIdx {α β : Type} (l : List α) (f : Nat → α → β) (p : β → Bool)
    (q : α → Bool) (hpq : ∀ i a, p (f i a) = q a) :
    (l.mapIdx f).countP p = l.countP q := by
  rw [countP_eq_countP_range p (l.mapIdx f), countP_eq_countP_range q l,
    List.length_mapIdx]
  apply List.countP_congr
  intro i _
  rw [List.getElem?_mapIdx]
  cases l[i]? with
  | none => simp
  | some a => simp [hpq]

theorem map_mapIdx_eq {α β γ : Type} (l : List α) (f : Nat → α → β) (g : β → γ) :
    (l.mapIdx f).map g = l.mapIdx (fun i a => g (f i a)) := by
  rw [List.mapIdx_eq_enum_map, List.mapIdx_eq_enum_map, List.map_map]
  rfl

theorem find_cell_eq_bind (g : Game) (x y : Nat) :
    g.find_cell_at_pos x y = (g.cells[y]?).bind (fun row => row[x]?) := rfl

theorem aliveAt_eq_elim (g : Game) (x y : Nat) :
    g.aliveAt x y = ((g.cells[y]?).bind (fun row => row[x]?)).elim false Cell.is_alive := rfl

theorem row_length_eq_width {g : Game} (hrect : g.rectangular) {j : Nat} {row : List Cell}
    (h : g.cells[j]? = some row) : row.length = g.width := by
  apply hrect
  rcases List.getElem?_eq_some_iff.mp h with ⟨hj, hrow⟩
  rw [← hrow]
  exact List.getElem_mem hj

theorem aliveAt_false_of_width_le {g : Game} (hrect : g.rectangular) {i : Nat} (j : Nat)
    (hi : g.width ≤ i) : g.aliveAt i j = false := by
  rw [aliveAt_eq_elim]
  cases h : g.cells[j]? with
  | none => rfl
  | some row =>
    have : row[i]? = none := List.getElem?_eq_none (by rw [row_length_eq_width hrect h]; exact hi)
    simp [this]

theorem aliveAt_false_of_height_le {g : Game} {j : Nat} (i : Nat)
    (hj : g.height ≤ j) : g.aliveAt i j = false := by
  rw [aliveAt_eq_elim]
  have : g.cells[j]? = none := List.getElem?_eq_none hj
  simp [this]

theorem slice_until_eq {α : Type} {a : List α} {lo : Nat} (untilN : Nat)
    (h : lo ≤ a.length) : slice_until a lo untilN = some ((a.drop lo).take untilN) := by
  unfold slice_until
  rw [if_pos h]
  show some ((a.drop lo).take (min untilN (a.drop lo).length)) = _
  congr 1
  rcases Nat.le_total untilN (a.drop lo).length with hb | hb
  · rw [Nat.min_eq_left hb]
  · rw [Nat.min_eq_right hb, List.take_length, List.take_of_length_le hb]

theorem slice_len_2d_eq_countP (cells : List (List Cell)) (j a b : Nat) (p : Cell → Bool)
    (hrow : ∀ row, cells[j]? = some row → a ≤ row.length) :
    slice_len_2d cells j a b p
      = (List.range' a b).countP
          (fun i => ((cells[j]?.bind (fun row => row[i]?)).elim false p)) := by
  cases h : cells[j]? with
  | none =>
    simp only [slice_len_2d, h]
    symm
    rw [List.countP_eq_zero]
    intro i _
    simp
  | some row =>
    simp only [slice_len_2d, h, slice_until_eq b (hrow row h), Option.some_bind]
    exact filter_take_drop_eq_countP_range' p b a row

theorem neighbours_raw (g : Game) (x y : Nat) :
    g.get_neighbours_count_at_pos x y
      = ((if y - 1 ≠ y then
            slice_len_2d g.cells (y - 1) (x - 1) (min (x + 1) 65535 - (x - 1) + 1)
              (fun c => c.is_alive)
          else 0)
        + slice_len_2d g.cells y (x - 1) (min (x + 1) 65535 - (x - 1) + 1)
            (fun c => c.is_alive && !(c.x == x && c.y == y))
        + slice_len_2d g.cells (min (y + 1) 65535) (x - 1) (min (x + 1) 65535 - (x - 1) + 1)
            (fun c => c.is_alive)) % 256 := rfl

theorem plain_row_slice_eq (g : Game) (j a b : Nat)
    (hlen : ∀ row, g.cells[j]? = some row → a ≤ row.length) :
    slice_len_2d g.cells j a b (fun c => c.is_alive)
      = (List.range' a b).countP (fun i => g.aliveAt i j) := by
  rw [slice_len_2d_eq_countP g.cells j a b _ hlen]
  apply List.countP_congr
  intro i _
  exact Iff.rfl

theorem current_row_filter_eq (g : Game) (x y a b : Nat) (hinv : g.coordInv)
    (hlen : ∀ row, g.cells[y]? = some row → a ≤ row.length) :
    slice_len_2d g.cells y a b (fun c => c.is_alive && !(c.x == x && c.y == y))
      = (List.range' a b).countP (fun i => g.aliveAt i y && !(i == x)) := by
  rw [slice_len_2d_eq_countP g.cells y a b _ hlen]
  apply List.countP_congr
  intro i _
  rw [aliveAt_eq_elim]
  cases hrow : g.cells[y]? with
  | none => simp
  | some row =>
    simp only [Option.some_bind]
    cases hc : row[i]? with
    | none => simp
    | some c =>
      rcases hinv y row hrow i c hc with ⟨hcx, hcy⟩
      simp only [Option.elim]
      rw [hcx, hcy]
      by_cases hix : i = x <;> simp [hix]

theorem row_term_offcenter (g : Game) (x y j : Nat) (hj : j ≠ y) (I : List Nat) :
    I.countP (fun i => g.aliveAt i j && decide (¬(i = x ∧ j = y)))
      = I.countP (fun i => g.aliveAt i j) := by
  apply List.countP_congr
  intro i _
  simp [hj]

theorem row_term_center (g : Game) (x y : Nat) (I : List Nat) :
    I.countP (fun i => g.aliveAt i y && decide (¬(i = x ∧ y = y)))
      = I.countP (fun i => g.aliveAt i y && !(i == x)) := by
  apply List.countP_congr
  intro i _
  by_cases h : i = x <;> simp [h]

theorem spec_count_decomposed (g : Game) (x y : Nat) :
    g.neighbourCountSpec x y
      = ((List.range' (y - 1) (min (g.height - 1) (y + 1) + 1 - (y - 1))).map
          (fun j => (List.range' (x - 1) (min (g.width - 1) (x + 1) + 1 - (x - 1))).countP
            (fun i => g.aliveAt i j && decide (¬(i = x ∧ j = y))))).sum := by
  unfold Game.neighbourCountSpec specWindow
  rw [← List.countP_eq_length_filter, List.countP_filter, List.countP_flatMap]
  congr 1
  apply List.map_congr_left
  intro j _
  show List.countP _ (List.map (fun i => (i, j)) _) = _
  rw [List.countP_map]
  apply List.countP_congr
  intro i _
  show (g.aliveAt i j && decide (¬(i, j) = (x, y))) = true
    ↔ (g.aliveAt i j && decide (¬(i = x ∧ j = y))) = true
  simp [Prod.mk.injEq]

theorem countP_range'_window_ext (g : Game) (x : Nat)
    (hx : x < g.width) (hw : g.width ≤ 65535) (pred : Nat → Bool)
    (hpred : ∀ i, g.width ≤ i → pred i = false) :
    (List.range' (x - 1) (min (x + 1) 65535 - (x - 1) + 1)).countP pred
      = (List.range' (x - 1) (min (g.width - 1) (x + 1) + 1 - (x - 1))).countP pred := by
  by_cases hcase : x + 2 ≤ g.width
  · have : min (x + 1) 65535 - (x - 1) + 1 = min (g.width - 1) (x + 1) + 1 - (x - 1) := by
      omega
    rw [this]
  · exact countP_range'_drop pred (x - 1) _ _ (by omega) (fun i hi => hpred i (by omega))

theorem countP_aliveAt_row_zero (g : Game) {j : Nat} (hj : g.height ≤ j) (I : List Nat) :
    I.countP (fun i => g.aliveAt i j) = 0 := by
  rw [List.countP_eq_zero]
  intro i _
  simp [aliveAt_false_of_height_le i hj]


theorem bool_and_right {a b : Bool} (h : (a && b) = true) : b = true := by
  cases a <;> cases b <;> simp_all

/-- C2: for a rectangular grid satisfying the cell-coordinate invariant and
an in-bounds position, `get_neighbours_count_at_pos` returns exactly the
number of Alive cells on the clamped 3-by-3 window around `(x, y)` minus its
centre (off-grid positions contribute zero and no coordinate wraps), and the
result is at most 8. -/
theorem neighbour_count_clamped_spec (g : Game) (x y : Nat)
    (hrect : g.rectangular) (hinv : g.coordInv)
    (hx : x < g.width) (hy : y < g.height)
    (hw : g.width ≤ 65535) (hh : g.height ≤ 65535) :
    g.get_neighbours_count_at_pos x y = g.neighbourCountSpec x y
      ∧ g.neighbourCountSpec x y ≤ 8 := by
  have hlen : ∀ j : Nat, ∀ row : List Cell, g.cells[j]? = some row → x - 1 ≤ row.length := by
    intro j row h
    rw [row_length_eq_width hrect h]
    omega
  have hnexty : min (y + 1) 65535 = y + 1 := by omega
  rw [neighbours_raw, hnexty,
    plain_row_slice_eq g (y - 1) _ _ (hlen (y - 1)),
    plain_row_slice_eq g (y + 1) _ _ (hlen (y + 1)),
    current_row_filter_eq g x y _ _ hinv (hlen y),
    countP_range'_window_ext g x hx hw (fun i => g.aliveAt i (y - 1))
      (fun i hi => aliveAt_false_of_width_le hrect _ hi),
    countP_range'_window_ext g x hx hw (fun i => g.aliveAt i (y + 1))
      (fun i hi => aliveAt_false_of_width_le hrect _ hi),
    countP_range'_window_ext g x hx hw (fun i => g.aliveAt i y && !(i == x))
      (fun i hi => by
        show (g.aliveAt i y && !(i == x)) = false
        rw [aliveAt_false_of_width_le hrect _ hi]
        rfl),
    spec_count_decomposed]
  have hIrlen : (List.range' (x - 1) (min (g.width - 1) (x + 1) + 1 - (x - 1))).length
      = min (g.width - 1) (x + 1) + 1 - (x - 1) := List.length_range' _ _ _
  have hIrle : min (g.width - 1) (x + 1) + 1 - (x - 1) ≤ 3 := by omega
  have hS3 : ∀ j : Nat,
      (List.range' (x - 1) (min (g.width - 1) (x + 1) + 1 - (x - 1))).countP
        (fun i => g.aliveAt i j) ≤ 3 :=
    fun j => le_trans (List.countP_le_length _) (by rw [hIrlen]; exact hIrle)
  have hxmem : x ∈ List.range' (x - 1) (min (g.width - 1) (x + 1) + 1 - (x - 1)) := by
    rw [List.mem_range'_1]
    omega
  have hcount1 : (List.range' (x - 1) (min (g.width - 1) (x + 1) + 1 - (x - 1))).count x = 1 :=
    List.count_eq_one_of_mem (List.nodup_range' _ _) hxmem
  have hsplit := List.length_eq_countP_add_countP (fun i => i == x)
    (List.range' (x - 1) (min (g.width - 1) (x + 1) + 1 - (x - 1)))
  have hne_eq : (List.range' (x - 1) (min (g.width - 1) (x + 1) + 1 - (x - 1))).countP
        (fun a => decide ¬((a == x) = true))
      = (List.range' (x - 1) (min (g.width - 1) (x + 1) + 1 - (x - 1))).countP
        (fun i => !(i == x)) :=
    List.countP_congr (fun a _ => by cases h : a == x <;> simp [h])
  have hbeq1 : (List.range' (x - 1) (min (g.width - 1) (x + 1) + 1 - (x - 1))).countP
      (fun i => i == x) = 1 := by
    rw [← List.count_eq_countP]
    exact hcount1
  have hScur : (List.range' (x - 1) (min (g.width - 1) (x + 1) + 1 - (x - 1))).countP
      (fun i => g.aliveAt i y && !(i == x)) ≤ 2 := by
    have hmono : (List.range' (x - 1) (min (g.width - 1) (x + 1) + 1 - (x - 1))).countP
          (fun i => g.aliveAt i y && !(i == x))
        ≤ (List.range' (x - 1) (min (g.width - 1) (x + 1) + 1 - (x - 1))).countP
          (fun i => !(i == x)) :=
      List.countP_mono_left (fun i _ h => bool_and_right h)
    omega
  rcases Nat.eq_zero_or_pos y with hy0 | hy0
  · by_cases hytop : y + 1 < g.height
    · have hjlen : min (g.height - 1) (y + 1) + 1 - (y - 1) = 2 := by omega
      rw [hjlen]
      have hJr : List.range' (y - 1) 2 = [y, y + 1] := by
        show [y - 1, y - 1 + 1] = [y, y + 1]
        rw [show y - 1 = y from by omega]
      rw [hJr]
      rw [List.map_cons, List.map_cons, List.map_nil, List.sum_cons, List.sum_cons,
        List.sum_nil]
      beta_reduce
      rw [row_term_center g x y, row_term_offcenter g x y (y + 1) (by omega)]
      rw [if_neg (by omega : ¬(y - 1 ≠ y))]
      refine ⟨?_, ?_⟩
      · rw [Nat.mod_eq_of_lt (by have := hS3 (y + 1); omega)]
        omega
      · have := hS3 (y + 1)
        omega
    · have hjlen : min (g.height - 1) (y + 1) + 1 - (y - 1) = 1 := by omega
      rw [hjlen]
      have hJr : List.range' (y - 1) 1 = [y] := by
        show [y - 1] = [y]
        rw [show y - 1 = y from by omega]
      rw [hJr]
      rw [List.map_cons, List.map_nil, List.sum_cons, List.sum_nil]
      beta_reduce
      rw [row_term_center g x y]
      rw [if_neg (by omega : ¬(y - 1 ≠ y))]
      have hnext0 : (List.range' (x - 1) (min (g.width - 1) (x + 1) + 1 - (x - 1))).countP
          (fun i => g.aliveAt i (y + 1)) = 0 :=
        countP_aliveAt_row_zero g (by omega) _
      refine ⟨?_, ?_⟩
      · rw [Nat.mod_eq_of_lt (by omega)]
        omega
      · omega
  · by_cases hytop : y + 1 < g.height
    · have hjlen : min (g.height - 1) (y + 1) + 1 - (y - 1) = 3 := by omega
      rw [hjlen]
      have hJr : List.range' (y - 1) 3 = [y - 1, y, y + 1] := by
        show [y - 1, y - 1 + 1, y - 1 + 1 + 1] = [y - 1, y, y + 1]
        rw [show y - 1 + 1 = y from by omega]
      rw [hJr]
      rw [List.map_cons, List.map_cons, List.map_cons, List.map_nil, List.sum_cons,
        List.sum_cons, List.sum_cons, List.sum_nil]
      beta_reduce
      rw [row_term_center g x y, row_term_offcenter g x y (y - 1) (by omega),
        row_term_offcenter g x y (y + 1) (by omega)]
      rw [if_pos (by omega : y - 1 ≠ y)]
      refine ⟨?_, ?_⟩
      · rw [Nat.mod_eq_of_lt (by have := hS3 (y - 1); have := hS3 (y + 1); omega)]
        omega
      · have := hS3 (y - 1)
        have := hS3 (y + 1)
        omega
    · have hjlen : min (g.height - 1) (y + 1) + 1 - (y - 1) = 2 := by omega
      rw [hjlen]
      have hJr : List.range' (y - 1) 2 = [y - 1, y] := by
        show [y - 1, y - 1 + 1] = [y - 1, y]
        rw [show y - 1 + 1 = y from by omega]
      rw [hJr]
      rw [List.map_cons, List.map_cons, List.map_nil, List.sum_cons, List.sum_cons,
        List.sum_nil]
      beta_reduce
      rw [row_term_center g x y, row_term_offcenter g x y (y - 1) (by omega)]
      rw [if_pos (by omega : y - 1 ≠ y)]
      have hnext0 : (List.range' (x - 1) (min (g.width - 1) (x + 1) + 1 - (x - 1))).countP
          (fun i => g.aliveAt i (y + 1)) = 0 :=
        countP_aliveAt_row_zero g (by omega) _
      refine ⟨?_, ?_⟩
      · rw [Nat.mod_eq_of_lt (by have := hS3 (y - 1); omega)]
        omega
      · have := hS3 (y - 1)
        omega

theorem tickCell_is_alive (b : Bool) (n xu yu : Nat) :
    (tickCell b n xu yu).is_alive = true
      ↔ ((b = true ∧ (n = 2 ∨ n = 3)) ∨ (b = false ∧ n = 3)) := by
  cases b <;> rcases n with _|_|_|_|m <;>
    simp [tickCell, Cell.is_alive, Cell.new, Cell.new_alive]

theorem tick_find (g : Game) (x y : Nat) (row : List Cell) (cell : Cell)
    (hrow : g.cells[y]? = some row) (hcell : row[x]? = some cell) :
    g.tick.find_cell_at_pos x y
      = some (tickCell cell.is_alive
          (g.get_neighbours_count_at_pos (x % 65536) (y % 65536))
          (x % 65536) (y % 65536)) := by
  show ((g.cells.mapIdx _)[y]?).bind _ = _
  rw [List.getElem?_mapIdx, hrow, Option.map_some', Option.some_bind,
    List.getElem?_mapIdx, hcell, Option.map_some']

/-- C1: for every rectangular grid (with u16-representable dimensions) and
every cell in it, after `tick` the cell is Alive iff (it was Alive and its
pre-tick neighbour count is 2 or 3) or (it was Dead and its pre-tick
neighbour count is exactly 3); the neighbour counts are those of the
pre-tick grid `g` only — `tick` builds a fresh nested list from `g` and
replaces the old one. -/
theorem tick_rule_correct (g : Game) (x y : Nat) (row : List Cell) (cell : Cell)
    (hrect : g.rectangular) (hw : g.width ≤ 65535) (hh : g.height ≤ 65535)
    (hrow : g.cells[y]? = some row) (hcell : row[x]? = some cell) :
    ∃ c2 : Cell, g.tick.find_cell_at_pos x y = some c2
      ∧ (c2.is_alive = true ↔
          ((cell.is_alive = true
              ∧ (g.get_neighbours_count_at_pos x y = 2
                ∨ g.get_neighbours_count_at_pos x y = 3))
            ∨ (cell.is_alive = false ∧ g.get_neighbours_count_at_pos x y = 3))) := by
  have hy : y < g.cells.length := (List.getElem?_eq_some_iff.mp hrow).1
  have hx : x < row.length := (List.getElem?_eq_some_iff.mp hcell).1
  have hxw : x < g.width := by
    rw [← row_length_eq_width hrect hrow]
    exact hx
  have hh2 : g.cells.length ≤ 65535 := hh
  have hxm : x % 65536 = x := Nat.mod_eq_of_lt (by omega)
  have hym : y % 65536 = y := Nat.mod_eq_of_lt (by omega)
  refine ⟨_, tick_find g x y row cell hrow hcell, ?_⟩
  rw [hxm, hym, tickCell_is_alive]

/-- Witness for C1 at the 2-by-2 all-Dead grid and position (0, 0). -/
theorem tick_rule_correct_witness :
    ∃ c2 : Cell, (Game.new 2 2).tick.find_cell_at_pos 0 0 = some c2
      ∧ (c2.is_alive = true ↔
          (((Cell.new 0 0).is_alive = true
              ∧ ((Game.new 2 2).get_neighbours_count_at_pos 0 0 = 2
                ∨ (Game.new 2 2).get_neighbours_count_at_pos 0 0 = 3))
            ∨ ((Cell.new 0 0).is_alive = false
              ∧ (Game.new 2 2).get_neighbours_count_at_pos 0 0 = 3))) :=
  tick_rule_correct (Game.new 2 2) 0 0 [Cell.new 0 0, Cell.new 1 0] (Cell.new 0 0)
    (by decide) (by decide) (by decide) (by decide) (by decide)

/-- C9: `tick` preserves the grid dimensions: the number of rows is
unchanged and every row keeps its length (stated for arbitrary grids,
rectangular or not). -/
theorem tick_preserves_dims (g : Game) :
    g.tick.height = g.height
      ∧ ∀ j : Nat, (g.tick.cells[j]?).map List.length = (g.cells[j]?).map List.length := by
  constructor
  · show (g.cells.mapIdx _).length = _
    exact List.length_mapIdx
  · intro j
    show ((g.cells.mapIdx _)[j]?).map List.length = _
    rw [List.getElem?_mapIdx]
    cases h : g.cells[j]? with
    | none => rfl
    | some row => simp

/-- C3 (failing input): on the degenerate grid with zero rows,
`resize_if_larger` evaluates `self.cells[0]` on an empty vector, an
out-of-bounds index that panics — modelled here as the `none` result —
so the call does not run to completion, contradicting the claim. -/
theorem resize_panics_on_empty_grid :
    (Game.with_cells []).resize_if_larger 1 1 = none := rfl

theorem find_eq_none_iff (g : Game) (hrect : g.rectangular) (x y : Nat) :
    g.find_cell_at_pos x y = none ↔ ¬(x < g.width ∧ y < g.height) := by
  rw [find_cell_eq_bind]
  cases hrow : g.cells[y]? with
  | none =>
    have hy : g.cells.length ≤ y := List.getElem?_eq_none_iff.mp hrow
    simp only [Option.none_bind]
    constructor
    · intro _ hc
      exact absurd hc.2 (by exact Nat.not_lt.mpr hy)
    · intro _
      trivial
  | some row =>
    have hy : y < g.cells.length := (List.getElem?_eq_some_iff.mp hrow).1
    have hlen : row.length = g.width := row_length_eq_width hrect hrow
    simp only [Option.some_bind]
    rw [List.getElem?_eq_none_iff, hlen]
    constructor
    · intro h hc
      omega
    · intro h
      by_contra hcon
      exact h ⟨by omega, hy⟩

/-- C4: `revive_cell_at_pos` and `kill_cell_at_pos` never panic; on a
rectangular grid they return `none` exactly when `(x, y)` is outside the
grid bounds — leaving the grid unchanged in that case — and `some ()`
exactly when `(x, y)` is in bounds. -/
theorem revive_kill_result_iff (g : Game) (x y : Nat) (hrect : g.rectangular) :
    ((g.revive_cell_at_pos x y).1 = some () ↔ (x < g.width ∧ y < g.height))
      ∧ ((g.revive_cell_at_pos x y).1 = none ↔ ¬(x < g.width ∧ y < g.height))
      ∧ ((g.revive_cell_at_pos x y).1 = none → (g.revive_cell_at_pos x y).2 = g)
      ∧ ((g.kill_cell_at_pos x y).1 = some () ↔ (x < g.width ∧ y < g.height))
      ∧ ((g.kill_cell_at_pos x y).1 = none ↔ ¬(x < g.width ∧ y < g.height))
      ∧ ((g.kill_cell_at_pos x y).1 = none → (g.kill_cell_at_pos x y).2 = g) := by
  cases hfind : g.find_cell_at_pos x y with
  | none =>
    have hbound : ¬(x < g.width ∧ y < g.height) := (find_eq_none_iff g hrect x y).mp hfind
    simp [Game.revive_cell_at_pos, Game.kill_cell_at_pos, hfind, hbound]
  | some c =>
    have hbound : x < g.width ∧ y < g.height := by
      by_contra hcon
      rw [← find_eq_none_iff g hrect x y] at hcon
      rw [hfind] at hcon
      exact Option.noConfusion hcon
    simp [Game.revive_cell_at_pos, Game.kill_cell_at_pos, hfind, hbound]

/-- Witness for C4 on a 2-by-3 grid at the out-of-bounds position (5, 7)
and (by the iff, covering the in-bounds direction) showing the exact
boundary characterization. -/
theorem revive_kill_result_iff_witness :
    (((Game.new 2 3).revive_cell_at_pos 5 7).1 = some ()
        ↔ (5 < (Game.new 2 3).width ∧ 7 < (Game.new 2 3).height))
      ∧ (((Game.new 2 3).revive_cell_at_pos 5 7).1 = none
        ↔ ¬(5 < (Game.new 2 3).width ∧ 7 < (Game.new 2 3).height))
      ∧ (((Game.new 2 3).revive_cell_at_pos 5 7).1 = none
        → ((Game.new 2 3).revive_cell_at_pos 5 7).2 = Game.new 2 3)
      ∧ (((Game.new 2 3).kill_cell_at_pos 5 7).1 = some ()
        ↔ (5 < (Game.new 2 3).width ∧ 7 < (Game.new 2 3).height))
      ∧ (((Game.new 2 3).kill_cell_at_pos 5 7).1 = none
        ↔ ¬(5 < (Game.new 2 3).width ∧ 7 < (Game.new 2 3).height))
      ∧ (((Game.new 2 3).kill_cell_at_pos 5 7).1 = none
        → ((Game.new 2 3).kill_cell_at_pos 5 7).2 = Game.new 2 3) :=
  revive_kill_result_iff (Game.new 2 3) 5 7 (by decide)

theorem find_some_parts {g : Game} {x y : Nat} {c : Cell}
    (h : g.find_cell_at_pos x y = some c) :
    ∃ row, g.cells[y]? = some row ∧ row[x]? = some c := by
  rw [find_cell_eq_bind] at h
  cases hrow : g.cells[y]? with
  | none =>
    rw [hrow] at h
    exact Option.noConfusion h
  | some row =>
    rw [hrow, Option.some_bind] at h
    exact ⟨row, rfl, h⟩

theorem update_height (g : Game) (x y : Nat) (f : Cell → Cell) :
    (Game.with_cells (listUpdate g.cells y (fun row => listUpdate row x f))).height
      = g.height :=
  listUpdate_length g.cells y _

theorem listUpdate_of_getElem_none {α : Type} {l : List α} {i : Nat} {f : α → α}
    (h : l[i]? = none) : listUpdate l i f = l := by
  unfold listUpdate
  rw [h]

theorem update_row_lengths (g : Game) (x y : Nat) (f : Cell → Cell) (j : Nat) :
    ((Game.with_cells (listUpdate g.cells y (fun row => listUpdate row x f))).cells[j]?).map
        List.length
      = (g.cells[j]?).map List.length := by
  show ((listUpdate g.cells y _)[j]?).map List.length = _
  by_cases hj : y = j
  · subst hj
    cases hrow : g.cells[y]? with
    | none =>
      rw [listUpdate_of_getElem_none hrow, hrow]
    | some row =>
      rw [getElem?_listUpdate_self hrow]
      simp [listUpdate_length]
  · rw [getElem?_listUpdate_ne hj]

theorem update_find_other (g : Game) (x y : Nat) (f : Cell → Cell) (i j : Nat)
    (hij : ¬(i = x ∧ j = y)) :
    (Game.with_cells (listUpdate g.cells y (fun row => listUpdate row x f))).find_cell_at_pos
        i j
      = g.find_cell_at_pos i j := by
  rw [find_cell_eq_bind, find_cell_eq_bind]
  show ((listUpdate g.cells y _)[j]?).bind _ = _
  by_cases hj : y = j
  · subst hj
    cases hrow : g.cells[y]? with
    | none =>
      rw [listUpdate_of_getElem_none hrow, hrow]
    | some row =>
      rw [getElem?_listUpdate_self hrow]
      simp only [Option.some_bind]
      have hix : ¬(x = i) := by
        intro hxi
        exact hij ⟨hxi.symm, rfl⟩
      rw [getElem?_listUpdate_ne hix]
  · rw [getElem?_listUpdate_ne hj]

theorem update_find_self (g : Game) (x y : Nat) (f : Cell → Cell) (c0 : Cell)
    (hfind : g.find_cell_at_pos x y = some c0) :
    (Game.with_cells (listUpdate g.cells y (fun row => listUpdate row x f))).find_cell_at_pos
        x y
      = some (f c0) := by
  obtain ⟨row, hrow, hcell⟩ := find_some_parts hfind
  rw [find_cell_eq_bind]
  show ((listUpdate g.cells y _)[y]?).bind _ = _
  rw [getElem?_listUpdate_self hrow, Option.some_bind, getElem?_listUpdate_self hcell]

theorem revive_state_eq (g : Game) (x y : Nat) (c0 : Cell)
    (hfind : g.find_cell_at_pos x y = some c0) :
    (g.revive_cell_at_pos x y).2
      = Game.with_cells (listUpdate g.cells y (fun row => listUpdate row x Cell.live)) := by
  unfold Game.revive_cell_at_pos
  rw [hfind]

theorem kill_state_eq (g : Game) (x y : Nat) (c0 : Cell)
    (hfind : g.find_cell_at_pos x y = some c0) :
    (g.kill_cell_at_pos x y).2
      = Game.with_cells (listUpdate g.cells y (fun row => listUpdate row x Cell.die)) := by
  unfold Game.kill_cell_at_pos
  rw [hfind]

/-- C10: for an in-bounds position, `revive_cell_at_pos` and
`kill_cell_at_pos` change at most the state of the cell at `(x, y)`:
dimensions are unchanged, every other position holds the same cell as
before, and the touched cell keeps its coordinates (only the kind field is
replaced). -/
theorem revive_kill_frame (g : Game) (x y : Nat) (c0 : Cell)
    (hfind : g.find_cell_at_pos x y = some c0) :
    ((g.revive_cell_at_pos x y).2.height = g.height
      ∧ (∀ j : Nat, ((g.revive_cell_at_pos x y).2.cells[j]?).map List.length
          = (g.cells[j]?).map List.length)
      ∧ (∀ i j : Nat, ¬(i = x ∧ j = y) →
          (g.revive_cell_at_pos x y).2.find_cell_at_pos i j = g.find_cell_at_pos i j)
      ∧ (g.revive_cell_at_pos x y).2.find_cell_at_pos x y = some (Cell.live c0))
    ∧ ((g.kill_cell_at_pos x y).2.height = g.height
      ∧ (∀ j : Nat, ((g.kill_cell_at_pos x y).2.cells[j]?).map List.length
          = (g.cells[j]?).map List.length)
      ∧ (∀ i j : Nat, ¬(i = x ∧ j = y) →
          (g.kill_cell_at_pos x y).2.find_cell_at_pos i j = g.find_cell_at_pos i j)
      ∧ (g.kill_cell_at_pos x y).2.find_cell_at_pos x y = some (Cell.die c0)) := by
  rw [revive_state_eq g x y c0 hfind, kill_state_eq g x y c0 hfind]
  exact ⟨⟨update_height g x y _, fun j => update_row_lengths g x y _ j,
      fun i j hij => update_find_other g x y _ i j hij,
      update_find_self g x y _ c0 hfind⟩,
    ⟨update_height g x y _, fun j => update_row_lengths g x y _ j,
      fun i j hij => update_find_other g x y _ i j hij,
      update_find_self g x y _ c0 hfind⟩⟩

/-- Witness for C10 at the 2-by-2 all-Dead grid and position (1, 0). -/
theorem revive_kill_frame_witness :
    (((Game.new 2 2).revive_cell_at_pos 1 0).2.height = (Game.new 2 2).height
      ∧ (∀ j : Nat, (((Game.new 2 2).revive_cell_at_pos 1 0).2.cells[j]?).map List.length
          = ((Game.new 2 2).cells[j]?).map List.length)
      ∧ (∀ i j : Nat, ¬(i = 1 ∧ j = 0) →
          ((Game.new 2 2).revive_cell_at_pos 1 0).2.find_cell_at_pos i j
            = (Game.new 2 2).find_cell_at_pos i j)
      ∧ ((Game.new 2 2).revive_cell_at_pos 1 0).2.find_cell_at_pos 1 0
          = some (Cell.live (Cell.new 1 0)))
    ∧ (((Game.new 2 2).kill_cell_at_pos 1 0).2.height = (Game.new 2 2).height
      ∧ (∀ j : Nat, (((Game.new 2 2).kill_cell_at_pos 1 0).2.cells[j]?).map List.length
          = ((Game.new 2 2).cells[j]?).map List.length)
      ∧ (∀ i j : Nat, ¬(i = 1 ∧ j = 0) →
          ((Game.new 2 2).kill_cell_at_pos 1 0).2.find_cell_at_pos i j
            = (Game.new 2 2).find_cell_at_pos i j)
      ∧ ((Game.new 2 2).kill_cell_at_pos 1 0).2.find_cell_at_pos 1 0
          = some (Cell.die (Cell.new 1 0))) :=
  revive_kill_frame (Game.new 2 2) 1 0 (Cell.new 1 0) (by decide)

theorem getElem?_map_range' {β : Type} (F : Nat → β) (s n k : Nat) (hk : k < n) :
    ((List.range' s n).map F)[k]? = some (F (s + k)) := by
  rw [List.getElem?_map, List.getElem?_range' s 1 hk, Option.map_some', Nat.one_mul]

theorem with_cells_cells (l : List (List Cell)) : (Game.with_cells l).cells = l := rfl

theorem resize_master (g : Game) (w2 h2 : Nat) (hrect : g.rectangular)
    (hne : g.cells ≠ []) (hh : g.height ≤ 65535) (hw : g.width ≤ 65535)
    (hw2 : w2 ≤ 65535) (hh2 : h2 ≤ 65535) :
    ∃ g2 : Game, g.resize_if_larger w2 h2 = some g2
      ∧ g2.height = max g.height h2
      ∧ (∀ row ∈ g2.cells, row.length = max g.width w2)
      ∧ (∀ x y : Nat, x < g.width → y < g.height →
          g2.find_cell_at_pos x y = g.find_cell_at_pos x y)
      ∧ (∀ x y : Nat, x < max g.width w2 → y < max g.height h2 →
          ¬(x < g.width ∧ y < g.height) → g2.find_cell_at_pos x y = some (Cell.new x y)) := by
  have hpos : 0 < g.cells.length := List.length_pos_iff_ne_nil.mpr hne
  have hheq : g.height = g.cells.length := rfl
  obtain ⟨row0, hrow0⟩ : ∃ r, g.cells[0]? = some r := ⟨_, List.getElem?_eq_getElem hpos⟩
  have hw0 : row0.length = g.width := row_length_eq_width hrect hrow0
  have hhlen : g.cells.length ≤ 65535 := hh
  have hmodl : g.cells.length % 65536 = g.cells.length := Nat.mod_eq_of_lt (by omega)
  have hmodw : row0.length % 65536 = row0.length := Nat.mod_eq_of_lt (by rw [hw0]; omega)
  have hre : g.resize_if_larger w2 h2 = some (Game.with_cells
      (if row0.length % 65536 < w2 then
        (if g.cells.length % 65536 < h2 then
            g.cells ++ (List.range' (g.cells.length % 65536) (h2 - g.cells.length % 65536)).map
              (fun j => (List.range (row0.length % 65536)).map (fun i => Cell.new i j))
          else g.cells).mapIdx (fun j row =>
            row ++ (List.range' (row0.length % 65536) (w2 - row0.length % 65536)).map
              (fun i => Cell.new i (j % 65536)))
      else
        (if g.cells.length % 65536 < h2 then
            g.cells ++ (List.range' (g.cells.length % 65536) (h2 - g.cells.length % 65536)).map
              (fun j => (List.range (row0.length % 65536)).map (fun i => Cell.new i j))
          else g.cells))) := by
    unfold Game.resize_if_larger
    rw [hrow0]
  rw [hmodl, hmodw, hw0] at hre
  -- facts about the intermediate row list (after the height-growth pass)
  have f1_len : (if g.cells.length < h2 then
        g.cells ++ (List.range' g.cells.length (h2 - g.cells.length)).map
          (fun j => (List.range g.width).map (fun i => Cell.new i j))
      else g.cells).length = max g.cells.length h2 := by
    by_cases hc : g.cells.length < h2
    · rw [if_pos hc]
      simp only [List.length_append, List.length_map, List.length_range']
      omega
    · rw [if_neg hc]
      omega
  have f1_get_lt : ∀ j : Nat, j < g.cells.length → (if g.cells.length < h2 then
        g.cells ++ (List.range' g.cells.length (h2 - g.cells.length)).map
          (fun j => (List.range g.width).map (fun i => Cell.new i j))
      else g.cells)[j]? = g.cells[j]? := by
    intro j hj
    by_cases hc : g.cells.length < h2
    · rw [if_pos hc, List.getElem?_append_left hj]
    · rw [if_neg hc]
  have f1_get_new : ∀ j : Nat, g.cells.length ≤ j → j < h2 → (if g.cells.length < h2 then
        g.cells ++ (List.range' g.cells.length (h2 - g.cells.length)).map
          (fun j => (List.range g.width).map (fun i => Cell.new i j))
      else g.cells)[j]? = some ((List.range g.width).map (fun i => Cell.new i j)) := by
    intro j hj1 hj2
    rw [if_pos (by omega), List.getElem?_append_right hj1,
      getElem?_map_range' _ _ _ _ (by omega),
      show g.cells.length + (j - g.cells.length) = j from by omega]
  have f1_rowlen : ∀ (j : Nat) (row : List Cell), (if g.cells.length < h2 then
        g.cells ++ (List.range' g.cells.length (h2 - g.cells.length)).map
          (fun j => (List.range g.width).map (fun i => Cell.new i j))
      else g.cells)[j]? = some row → row.length = g.width := by
    intro j row hrowj
    by_cases hj : j < g.cells.length
    · rw [f1_get_lt j hj] at hrowj
      exact row_length_eq_width hrect hrowj
    · have hlt : j < (if g.cells.length < h2 then
          g.cells ++ (List.range' g.cells.length (h2 - g.cells.length)).map
            (fun j => (List.range g.width).map (fun i => Cell.new i j))
        else g.cells).length := (List.getElem?_eq_some_iff.mp hrowj).1
      rw [f1_len] at hlt
      rw [f1_get_new j (by omega) (by omega)] at hrowj
      have := Option.some.inj hrowj
      rw [← this]
      simp
  refine ⟨_, hre, ?_, ?_, ?_, ?_⟩
  · show (Game.with_cells _).cells.length = _
    rw [with_cells_cells]
    by_cases hc : g.width < w2
    · rw [if_pos hc]
      show (List.mapIdx _ _).length = _
      rw [List.length_mapIdx]
      exact f1_len
    · rw [if_neg hc]
      exact f1_len
  · intro row hrow
    rw [List.mem_iff_getElem?] at hrow
    obtain ⟨j, hj⟩ := hrow
    rw [with_cells_cells] at hj
    by_cases hc : g.width < w2
    · rw [if_pos hc] at hj
      rw [List.getElem?_mapIdx] at hj
      cases h1 : (if g.cells.length < h2 then
          g.cells ++ (List.range' g.cells.length (h2 - g.cells.length)).map
            (fun j => (List.range g.width).map (fun i => Cell.new i j))
        else g.cells)[j]? with
      | none =>
        rw [h1] at hj
        exact Option.noConfusion hj
      | some row1 =>
        rw [h1] at hj
        rw [Option.map_some'] at hj
        have hr := Option.some.inj hj
        rw [← hr]
        simp only [List.length_append, List.length_map, List.length_range']
        rw [f1_rowlen j row1 h1]
        omega
    · rw [if_neg hc] at hj
      rw [f1_rowlen j row hj]
      omega
  · intro x y hx hy
    rw [find_cell_eq_bind, find_cell_eq_bind, with_cells_cells]
    by_cases hc : g.width < w2
    · rw [if_pos hc]
      rw [List.getElem?_mapIdx, f1_get_lt y hy]
      cases hrowy : g.cells[y]? with
      | none =>
        have : g.cells.length ≤ y := List.getElem?_eq_none_iff.mp hrowy
        omega
      | some rowy =>
        rw [Option.map_some', Option.some_bind, Option.some_bind,
          List.getElem?_append_left (by rw [row_length_eq_width hrect hrowy]; exact hx)]
    · rw [if_neg hc]
      rw [f1_get_lt y hy]
  · intro x y hx hy hnot
    rw [find_cell_eq_bind, with_cells_cells]
    have hyh2 : y < max g.cells.length h2 := hy
    by_cases hyold : y < g.cells.length
    · -- old row, new column: requires width growth
      have hxnew : g.width ≤ x := by
        by_contra hcon
        exact hnot ⟨by omega, hyold⟩
      have hc : g.width < w2 := by
        have : x < max g.width w2 := hx
        omega
      rw [if_pos hc]
      rw [List.getElem?_mapIdx, f1_get_lt y hyold]
      cases hrowy : g.cells[y]? with
      | none =>
        have : g.cells.length ≤ y := List.getElem?_eq_none_iff.mp hrowy
        omega
      | some rowy =>
        have hlenr : rowy.length = g.width := row_length_eq_width hrect hrowy
        rw [Option.map_some', Option.some_bind,
          List.getElem?_append_right (by omega), hlenr,
          getElem?_map_range' _ _ _ _ (by have : x < max g.width w2 := hx; omega),
          show g.width + (x - g.width) = x from by omega,
          show y % 65536 = y from Nat.mod_eq_of_lt (by omega)]
    · -- new row appended by the height pass
      have hy2 : y < h2 := by omega
      by_cases hc : g.width < w2
      · rw [if_pos hc]
        rw [List.getElem?_mapIdx, f1_get_new y (by omega) hy2, Option.map_some',
          Option.some_bind]
        by_cases hxold : x < g.width
        · rw [List.getElem?_append_left (by simpa using hxold), List.getElem?_map,
            List.getElem?_range hxold, Option.map_some']
        · rw [List.getElem?_append_right (by simpa using Nat.le_of_not_lt hxold),
            List.length_map, List.length_range,
            getElem?_map_range' _ _ _ _ (by have : x < max g.width w2 := hx; omega),
            show g.width + (x - g.width) = x from by omega,
            show y % 65536 = y from Nat.mod_eq_of_lt (by omega)]
      · rw [if_neg hc]
        have hxold : x < g.width := by
          have : x < max g.width w2 := hx
          omega
        rw [f1_get_new y (by omega) hy2, Option.some_bind, List.getElem?_map,
          List.getElem?_range hxold, Option.map_some']

theorem width_eq_of_first_row {g : Game} {r : List Cell} (h : g.cells[0]? = some r) :
    g.width = r.length := by
  show (g.cells.head?).elim 0 List.length = r.length
  rw [List.head?_eq_getElem?, h]
  rfl

theorem new_cells_eq (w h : Nat) :
    (Game.new w h).cells
      = (List.range h).map (fun y => (List.range w).map (fun x => Cell.new x y)) := rfl

theorem new_getElem (w h y : Nat) (hy : y < h) :
    (Game.new w h).cells[y]? = some ((List.range w).map (fun x => Cell.new x y)) := by
  rw [new_cells_eq, List.getElem?_map, List.getElem?_range hy, Option.map_some']

theorem width_new (w h : Nat) (hh : 0 < h) : (Game.new w h).width = w := by
  rw [width_eq_of_first_row (new_getElem w h 0 hh)]
  simp

theorem rect_new (w h : Nat) : (Game.new w h).rectangular := by
  intro row hrow
  rw [new_cells_eq, List.mem_map] at hrow
  obtain ⟨y, hy, rfl⟩ := hrow
  rw [List.mem_range] at hy
  rw [width_new w h (by omega)]
  simp

theorem rect_of_shape_eq (g1 g2 : Game) (h1 : g1.rectangular)
    (hrows : ∀ j : Nat, (g2.cells[j]?).map List.length = (g1.cells[j]?).map List.length) :
    g2.rectangular := by
  have hwidth : g2.width = g1.width := by
    show (g2.cells.head?).elim 0 List.length = (g1.cells.head?).elim 0 List.length
    rw [List.head?_eq_getElem?, List.head?_eq_getElem?]
    have h0 := hrows 0
    cases h2 : g2.cells[0]? with
    | none =>
      rw [h2] at h0
      cases h1' : g1.cells[0]? with
      | none => rfl
      | some r1 =>
        rw [h1'] at h0
        exact Option.noConfusion h0
    | some r2 =>
      rw [h2] at h0
      cases h1' : g1.cells[0]? with
      | none =>
        rw [h1'] at h0
        exact Option.noConfusion h0
      | some r1 =>
        rw [h1'] at h0
        simp only [Option.map_some'] at h0
        simpa using Option.some.inj h0
  intro row hrow
  rw [List.mem_iff_getElem?] at hrow
  obtain ⟨j, hj⟩ := hrow
  have h0 := hrows j
  rw [hj] at h0
  cases h1' : g1.cells[j]? with
  | none =>
    rw [h1'] at h0
    exact Option.noConfusion h0
  | some r1 =>
    rw [h1'] at h0
    simp only [Option.map_some'] at h0
    have hlen := Option.some.inj h0
    rw [hwidth, hlen]
    apply h1
    rcases List.getElem?_eq_some_iff.mp h1' with ⟨hlt, hr⟩
    rw [← hr]
    exact List.getElem_mem hlt

theorem tick_cells_eq (g : Game) :
    g.tick.cells = g.cells.mapIdx (fun y row =>
      row.mapIdx (fun x cell =>
        tickCell cell.is_alive
          (g.get_neighbours_count_at_pos (x % 65536) (y % 65536))
          (x % 65536) (y % 65536))) := rfl

theorem tick_shape (g : Game) (j : Nat) :
    (g.tick.cells[j]?).map List.length = (g.cells[j]?).map List.length := by
  rw [tick_cells_eq, List.getElem?_mapIdx]
  cases h : g.cells[j]? with
  | none => rfl
  | some row => simp

theorem revive_shape (g : Game) (x y j : Nat) :
    ((g.revive_cell_at_pos x y).2.cells[j]?).map List.length
      = (g.cells[j]?).map List.length := by
  cases hfind : g.find_cell_at_pos x y with
  | none =>
    unfold Game.revive_cell_at_pos
    rw [hfind]
  | some c =>
    rw [revive_state_eq g x y c hfind]
    exact update_row_lengths g x y _ j

theorem kill_shape (g : Game) (x y j : Nat) :
    ((g.kill_cell_at_pos x y).2.cells[j]?).map List.length
      = (g.cells[j]?).map List.length := by
  cases hfind : g.find_cell_at_pos x y with
  | none =>
    unfold Game.kill_cell_at_pos
    rw [hfind]
  | some c =>
    rw [kill_state_eq g x y c hfind]
    exact update_row_lengths g x y _ j

theorem tickCell_coords (b : Bool) (n xu yu : Nat) :
    (tickCell b n xu yu).x = xu ∧ (tickCell b n xu yu).y = yu := by
  cases b <;> rcases n with _|_|_|_|m <;> simp [tickCell, Cell.new, Cell.new_alive]

theorem coordInv_new (w h : Nat) : (Game.new w h).coordInv := by
  intro y row hrow x c hc
  rw [new_cells_eq, List.getElem?_map] at hrow
  cases hy : (List.range h)[y]? with
  | none =>
    rw [hy] at hrow
    exact Option.noConfusion hrow
  | some y0 =>
    have hylt : y < h := by
      have := (List.getElem?_eq_some_iff.mp hy).1
      simpa using this
    have hy0 : y0 = y := by
      have := List.getElem?_range hylt
      rw [hy] at this
      exact Option.some.inj this
    subst hy0
    rw [hy, Option.map_some'] at hrow
    have hroweq := Option.some.inj hrow
    rw [← hroweq, List.getElem?_map] at hc
    cases hx : (List.range w)[x]? with
    | none =>
      rw [hx] at hc
      exact Option.noConfusion hc
    | some x0 =>
      have hxlt : x < w := by
        have := (List.getElem?_eq_some_iff.mp hx).1
        simpa using this
      have hx0 : x0 = x := by
        have := List.getElem?_range hxlt
        rw [hx] at this
        exact Option.some.inj this
      subst hx0
      rw [hx, Option.map_some'] at hc
      have := Option.some.inj hc
      rw [← this]
      exact ⟨rfl, rfl⟩

theorem coordInv_update (g : Game) (x y : Nat) (f : Cell → Cell)
    (hf : ∀ c, (f c).x = c.x ∧ (f c).y = c.y) (hinv : g.coordInv) :
    (Game.with_cells (listUpdate g.cells y (fun row => listUpdate row x f))).coordInv := by
  intro j row hrow i c hc
  rw [with_cells_cells] at hrow
  by_cases hj : y = j
  · subst hj
    cases horig : g.cells[y]? with
    | none =>
      rw [listUpdate_of_getElem_none horig] at hrow
      exact hinv y row hrow i c hc
    | some row0 =>
      rw [getElem?_listUpdate_self horig] at hrow
      have hreq := Option.some.inj hrow
      rw [← hreq] at hc
      by_cases hix : x = i
      · subst hix
        cases horigc : row0[x]? with
        | none =>
          rw [listUpdate_of_getElem_none horigc] at hc
          exact hinv y row0 horig x c hc
        | some c0 =>
          rw [getElem?_listUpdate_self horigc] at hc
          have hceq := Option.some.inj hc
          obtain ⟨h1, h2⟩ := hinv y row0 horig x c0 horigc
          rw [← hceq, (hf c0).1, (hf c0).2]
          exact ⟨h1, h2⟩
      · rw [getElem?_listUpdate_ne hix] at hc
        exact hinv y row0 horig i c hc
  · rw [getElem?_listUpdate_ne hj] at hrow
    exact hinv j row hrow i c hc

theorem coordInv_tick (g : Game) (hrect : g.rectangular) (hw : g.width ≤ 65535)
    (hh : g.height ≤ 65535) : g.tick.coordInv := by
  intro j row hrow i c hc
  rw [tick_cells_eq, List.getElem?_mapIdx] at hrow
  cases horig : g.cells[j]? with
  | none =>
    rw [horig] at hrow
    exact Option.noConfusion hrow
  | some rowj =>
    have hjlt : j < g.cells.length := (List.getElem?_eq_some_iff.mp horig).1
    have hh2 : g.cells.length ≤ 65535 := hh
    rw [horig, Option.map_some'] at hrow
    have hroweq := Option.some.inj hrow
    rw [← hroweq, List.getElem?_mapIdx] at hc
    cases horigc : rowj[i]? with
    | none =>
      rw [horigc] at hc
      exact Option.noConfusion hc
    | some c1 =>
      have hilt : i < rowj.length := (List.getElem?_eq_some_iff.mp horigc).1
      have hiw : i < g.width := by
        rw [← row_length_eq_width hrect horig]
        exact hilt
      rw [horigc, Option.map_some'] at hc
      have hceq := Option.some.inj hc
      rw [← hceq]
      rcases tickCell_coords c1.is_alive
        (g.get_neighbours_count_at_pos (i % 65536) (j % 65536)) (i % 65536) (j % 65536)
        with ⟨hcx, hcy⟩
      rw [hcx, hcy, Nat.mod_eq_of_lt (by omega), Nat.mod_eq_of_lt (by omega)]
      exact ⟨rfl, rfl⟩

theorem resize_coordInv (g : Game) (w2 h2 : Nat) (hinv : g.coordInv)
    (hrect : g.rectangular) (hne : g.cells ≠ []) (hh : g.height ≤ 65535)
    (hw : g.width ≤ 65535) (hw2 : w2 ≤ 65535) (hh2 : h2 ≤ 65535)
    (g2 : Game) (hres : g.resize_if_larger w2 h2 = some g2) : g2.coordInv := by
  obtain ⟨g2', hres', hhei, hrows, holdc, hnewc⟩ :=
    resize_master g w2 h2 hrect hne hh hw hw2 hh2
  rw [hres] at hres'
  have hg2 : g2 = g2' := Option.some.inj hres'
  subst hg2
  intro j row hrow i c hc
  have hfind : g2.find_cell_at_pos i j = some c := by
    rw [find_cell_eq_bind, hrow, Option.some_bind]
    exact hc
  have hj2 : j < g2.cells.length := (List.getElem?_eq_some_iff.mp hrow).1
  have hrl : row.length = max g.width w2 := by
    apply hrows
    rcases List.getElem?_eq_some_iff.mp hrow with ⟨hlt, hr⟩
    rw [← hr]
    exact List.getElem_mem hlt
  have hi2 : i < max g.width w2 := by
    rw [← hrl]
    exact (List.getElem?_eq_some_iff.mp hc).1
  have hjm : j < max g.height h2 := by
    have : g2.height = max g.height h2 := hhei
    have hj3 : j < g2.height := hj2
    omega
  by_cases hreg : i < g.width ∧ j < g.height
  · have heq := holdc i j hreg.1 hreg.2
    rw [heq] at hfind
    obtain ⟨rowg, hr1, hr2⟩ := find_some_parts hfind
    exact hinv j rowg hr1 i c hr2
  · have heq := hnewc i j hi2 hjm hreg
    rw [hfind] at heq
    have := Option.some.inj heq
    rw [this]
    exact ⟨rfl, rfl⟩

/-- C5: rectangularity is preserved by every operation — construction,
revive, kill, tick, and resize — and after `resize_if_larger(w2, h2)` on a
rectangular grid with at least one row all rows have the common length
`max old_width w2 ≥ w2` and the row count is `max old_height h2 ≥ h2`, so
repeated calls grow the dimensions monotonically and never shrink them. -/
theorem rectangular_invariant (w h x y w2 h2 : Nat) (g : Game) :
    (Game.new w h).rectangular
    ∧ (g.rectangular → (g.revive_cell_at_pos x y).2.rectangular)
    ∧ (g.rectangular → (g.kill_cell_at_pos x y).2.rectangular)
    ∧ (g.rectangular → g.tick.rectangular)
    ∧ (g.rectangular → g.cells ≠ [] → g.height ≤ 65535 → g.width ≤ 65535 →
        w2 ≤ 65535 → h2 ≤ 65535 →
        ∃ g2, g.resize_if_larger w2 h2 = some g2 ∧ g2.rectangular
          ∧ g2.width = max g.width w2 ∧ g2.height = max g.height h2) := by
  refine ⟨rect_new w h,
    fun hr => rect_of_shape_eq g _ hr (revive_shape g x y),
    fun hr => rect_of_shape_eq g _ hr (kill_shape g x y),
    fun hr => rect_of_shape_eq g _ hr (tick_shape g), ?_⟩
  intro hrect hne hh hw hw2 hh2
  obtain ⟨g2, hres, hhei, hrows, _, _⟩ := resize_master g w2 h2 hrect hne hh hw hw2 hh2
  have hwidth : g2.width = max g.width w2 := by
    have hpos : 0 < g.cells.length := List.length_pos_iff_ne_nil.mpr hne
    have hpos2 : 0 < g2.cells.length := by
      have h1 : g2.height = max g.height h2 := hhei
      have h2' : g.height = g.cells.length := rfl
      have h3 : g2.height = g2.cells.length := rfl
      omega
    obtain ⟨r0, hr0⟩ : ∃ r, g2.cells[0]? = some r := ⟨_, List.getElem?_eq_getElem hpos2⟩
    rw [width_eq_of_first_row hr0]
    apply hrows
    rcases List.getElem?_eq_some_iff.mp hr0 with ⟨hlt, hr⟩
    rw [← hr]
    exact List.getElem_mem hlt
  refine ⟨g2, hres, ?_, hwidth, hhei⟩
  intro row hrow
  rw [hwidth]
  exact hrows row hrow

/-- Witness for C5 on the 3-by-2 grid resized to 4-by-3 (and revive, kill
and tick applied at (0, 0)). -/
theorem rectangular_invariant_witness :
    (Game.new 2 2).rectangular
    ∧ ((Game.new 3 2).rectangular → ((Game.new 3 2).revive_cell_at_pos 0 0).2.rectangular)
    ∧ ((Game.new 3 2).rectangular → ((Game.new 3 2).kill_cell_at_pos 0 0).2.rectangular)
    ∧ ((Game.new 3 2).rectangular → (Game.new 3 2).tick.rectangular)
    ∧ ((Game.new 3 2).rectangular → (Game.new 3 2).cells ≠ []
        → (Game.new 3 2).height ≤ 65535 → (Game.new 3 2).width ≤ 65535
        → 4 ≤ 65535 → 3 ≤ 65535 →
        ∃ g2, (Game.new 3 2).resize_if_larger 4 3 = some g2 ∧ g2.rectangular
          ∧ g2.width = max (Game.new 3 2).width 4
          ∧ g2.height = max (Game.new 3 2).height 3) :=
  rectangular_invariant 2 2 0 0 4 3 (Game.new 3 2)

/-- C6: after `resize_if_larger` on a rectangular grid with at least one
row, every pre-existing position holds the same cell as before the call,
and every newly added position holds a Dead cell whose stored coordinates
equal its position (this is the observable content of appending height rows
at the pre-growth width and then extending all rows, including the new
ones, uniformly to the new width). -/
theorem resize_preserves_and_extends (g : Game) (w2 h2 : Nat) (hrect : g.rectangular)
    (hne : g.cells ≠ []) (hh : g.height ≤ 65535) (hw : g.width ≤ 65535)
    (hw2 : w2 ≤ 65535) (hh2 : h2 ≤ 65535) :
    ∃ g2, g.resize_if_larger w2 h2 = some g2
      ∧ (∀ x y : Nat, x < g.width → y < g.height →
          g2.find_cell_at_pos x y = g.find_cell_at_pos x y)
      ∧ (∀ x y : Nat, x < max g.width w2 → y < max g.height h2 →
          ¬(x < g.width ∧ y < g.height) →
          g2.find_cell_at_pos x y = some (Cell.new x y)) := by
  obtain ⟨g2, hres, _, _, hold, hnew⟩ := resize_master g w2 h2 hrect hne hh hw hw2 hh2
  exact ⟨g2, hres, hold, hnew⟩

/-- Witness for C6: the 3-by-2 grid resized to 4-by-3, the configuration of
the repository's unit test. -/
theorem resize_preserves_and_extends_witness :
    ∃ g2, (Game.new 3 2).resize_if_larger 4 3 = some g2
      ∧ (∀ x y : Nat, x < (Game.new 3 2).width → y < (Game.new 3 2).height →
          g2.find_cell_at_pos x y = (Game.new 3 2).find_cell_at_pos x y)
      ∧ (∀ x y : Nat, x < max (Game.new 3 2).width 4 → y < max (Game.new 3 2).height 3 →
          ¬(x < (Game.new 3 2).width ∧ y < (Game.new 3 2).height) →
          g2.find_cell_at_pos x y = some (Cell.new x y)) :=
  resize_preserves_and_extends (Game.new 3 2) 4 3 (by decide) (by decide) (by decide)
    (by decide) (by decide) (by decide)

/-- C7: every operation preserves the invariant that a cell's stored
`(x, y)` fields equal its column and row indices; and under that invariant
the neighbour scan's current-row filter — which compares stored coordinates
with the queried `(x, y)` — counts exactly the Alive cells at indices
`i ≠ x` of the scanned window: it excludes only the centre position and
never a surrounding neighbour, whatever the neighbours' states. -/
theorem coord_invariant_and_center_exclusion (w h x y w2 h2 : Nat) (g : Game) :
    (Game.new w h).coordInv
    ∧ (g.coordInv → (g.revive_cell_at_pos x y).2.coordInv)
    ∧ (g.coordInv → (g.kill_cell_at_pos x y).2.coordInv)
    ∧ (g.rectangular → g.width ≤ 65535 → g.height ≤ 65535 → g.tick.coordInv)
    ∧ (g.coordInv → g.rectangular → g.cells ≠ [] → g.height ≤ 65535 → g.width ≤ 65535 →
        w2 ≤ 65535 → h2 ≤ 65535 →
        ∀ g2, g.resize_if_larger w2 h2 = some g2 → g2.coordInv)
    ∧ (g.coordInv → g.rectangular → x < g.width →
        slice_len_2d g.cells y (x - 1) (min (x + 1) 65535 - (x - 1) + 1)
            (fun c => c.is_alive && !(c.x == x && c.y == y))
          = (List.range' (x - 1) (min (x + 1) 65535 - (x - 1) + 1)).countP
              (fun i => g.aliveAt i y && !(i == x))) := by
  refine ⟨coordInv_new w h, ?_, ?_,
    fun hrect hw2 hh2 => coordInv_tick g hrect hw2 hh2,
    fun hinv hrect hne hh2 hw2 hs1 hs2 g2 hres =>
      resize_coordInv g w2 h2 hinv hrect hne hh2 hw2 hs1 hs2 g2 hres, ?_⟩
  · intro hinv
    cases hfind : g.find_cell_at_pos x y with
    | none =>
      unfold Game.revive_cell_at_pos
      rw [hfind]
      exact hinv
    | some c =>
      rw [revive_state_eq g x y c hfind]
      exact coordInv_update g x y Cell.live (fun c0 => ⟨rfl, rfl⟩) hinv
  · intro hinv
    cases hfind : g.find_cell_at_pos x y with
    | none =>
      unfold Game.kill_cell_at_pos
      rw [hfind]
      exact hinv
    | some c =>
      rw [kill_state_eq g x y c hfind]
      exact coordInv_update g x y Cell.die (fun c0 => ⟨rfl, rfl⟩) hinv
  · intro hinv hrect hx
    apply current_row_filter_eq g x y _ _ hinv
    intro row hrow
    rw [row_length_eq_width hrect hrow]
    omega

/-- Witness for C7 at a 3-by-3 grid with a revived cell, position (1, 1). -/
theorem coord_invariant_and_center_exclusion_witness :
    (Game.new 2 3).coordInv
    ∧ ((Game.new 3 3).coordInv → ((Game.new 3 3).revive_cell_at_pos 1 1).2.coordInv)
    ∧ ((Game.new 3 3).coordInv → ((Game.new 3 3).kill_cell_at_pos 1 1).2.coordInv)
    ∧ ((Game.new 3 3).rectangular → (Game.new 3 3).width ≤ 65535
        → (Game.new 3 3).height ≤ 65535 → (Game.new 3 3).tick.coordInv)
    ∧ ((Game.new 3 3).coordInv → (Game.new 3 3).rectangular → (Game.new 3 3).cells ≠ []
        → (Game.new 3 3).height ≤ 65535 → (Game.new 3 3).width ≤ 65535
        → 4 ≤ 65535 → 4 ≤ 65535 →
        ∀ g2, (Game.new 3 3).resize_if_larger 4 4 = some g2 → g2.coordInv)
    ∧ ((Game.new 3 3).coordInv → (Game.new 3 3).rectangular → 1 < (Game.new 3 3).width →
        slice_len_2d (Game.new 3 3).cells 1 (1 - 1) (min (1 + 1) 65535 - (1 - 1) + 1)
            (fun c => c.is_alive && !(c.x == 1 && c.y == 1))
          = (List.range' (1 - 1) (min (1 + 1) 65535 - (1 - 1) + 1)).countP
              (fun i => (Game.new 3 3).aliveAt i 1 && !(i == 1))) :=
  coord_invariant_and_center_exclusion 2 3 1 1 4 4 (Game.new 3 3)

theorem listUpdate_eq_set {α : Type} {l : List α} {i : Nat} {a : α} (f : α → α)
    (h : l[i]? = some a) : listUpdate l i f = l.set i (f a) := by
  unfold listUpdate
  rw [h]

theorem listUpdate_idem {α : Type} (l : List α) (i : Nat) (f : α → α)
    (hf : ∀ a, f (f a) = f a) :
    listUpdate (listUpdate l i f) i f = listUpdate l i f := by
  cases h : l[i]? with
  | none => rw [listUpdate_of_getElem_none h, listUpdate_of_getElem_none h]
  | some a =>
    have h1 : (listUpdate l i f)[i]? = some (f a) := getElem?_listUpdate_self h
    calc listUpdate (listUpdate l i f) i f
        = (listUpdate l i f).set i (f (f a)) := listUpdate_eq_set f h1
      _ = (l.set i (f a)).set i (f (f a)) := by rw [listUpdate_eq_set f h]
      _ = l.set i (f (f a)) := List.set_set _ _ _ _
      _ = l.set i (f a) := by rw [hf a]
      _ = listUpdate l i f := (listUpdate_eq_set f h).symm

theorem revive_revive (g : Game) (x y : Nat) :
    ((g.revive_cell_at_pos x y).2.revive_cell_at_pos x y).2
      = (g.revive_cell_at_pos x y).2 := by
  cases hfind : g.find_cell_at_pos x y with
  | none =>
    have h2 : (g.revive_cell_at_pos x y).2 = g := by
      unfold Game.revive_cell_at_pos
      rw [hfind]
    rw [h2]
    exact h2
  | some c0 =>
    have hst := revive_state_eq g x y c0 hfind
    have hfind1 : (g.revive_cell_at_pos x y).2.find_cell_at_pos x y
        = some (Cell.live c0) := by
      rw [hst]
      exact update_find_self g x y Cell.live c0 hfind
    rw [revive_state_eq (g.revive_cell_at_pos x y).2 x y (Cell.live c0) hfind1, hst,
      with_cells_cells]
    congr 1
    exact listUpdate_idem g.cells y _
      (fun row => listUpdate_idem row x Cell.live (fun c => rfl))

theorem kill_kill (g : Game) (x y : Nat) :
    ((g.kill_cell_at_pos x y).2.kill_cell_at_pos x y).2
      = (g.kill_cell_at_pos x y).2 := by
  cases hfind : g.find_cell_at_pos x y with
  | none =>
    have h2 : (g.kill_cell_at_pos x y).2 = g := by
      unfold Game.kill_cell_at_pos
      rw [hfind]
    rw [h2]
    exact h2
  | some c0 =>
    have hst := kill_state_eq g x y c0 hfind
    have hfind1 : (g.kill_cell_at_pos x y).2.find_cell_at_pos x y
        = some (Cell.die c0) := by
      rw [hst]
      exact update_find_self g x y Cell.die c0 hfind
    rw [kill_state_eq (g.kill_cell_at_pos x y).2 x y (Cell.die c0) hfind1, hst,
      with_cells_cells]
    congr 1
    exact listUpdate_idem g.cells y _
      (fun row => listUpdate_idem row x Cell.die (fun c => rfl))

theorem cellsList_eq (g : Game) :
    g.cellsList = (g.cells.mapIdx (fun y row =>
      row.mapIdx (fun x cell => (cell, x % 65536, y % 65536)))).flatten := rfl

theorem countP_alive_cellsList (g : Game) :
    g.cellsList.countP (fun e => e.1.is_alive)
      = (g.cells.map (fun row => row.countP Cell.is_alive)).sum := by
  rw [cellsList_eq, List.countP_flatten, map_mapIdx_eq]
  congr 1
  rw [List.mapIdx_eq_enum_map]
  rw [List.map_congr_left (fun p _ => countP_mapIdx p.2
      (fun x cell => ((cell : Cell), x % 65536, p.1 % 65536))
      (fun e => e.1.is_alive) Cell.is_alive (fun i a => rfl))]
  rw [show ((fun p : Nat × List Cell => p.2.countP Cell.is_alive)
      = (fun row : List Cell => row.countP Cell.is_alive) ∘ Prod.snd) from rfl]
  rw [← List.map_map, List.enum_map_snd]

theorem allDead_row_countP {g : Game} (hdead : g.allDead) {j : Nat} {row : List Cell}
    (hrow : g.cells[j]? = some row) : row.countP Cell.is_alive = 0 := by
  rw [List.countP_eq_zero]
  intro c hc
  rw [List.mem_iff_getElem?] at hc
  obtain ⟨i, hi⟩ := hc
  have hfind : g.find_cell_at_pos i j = some c := by
    rw [find_cell_eq_bind, hrow, Option.some_bind]
    exact hi
  simp [hdead i j c hfind]

theorem set_row_countP_one {row : List Cell} {x : Nat} {c0 : Cell}
    (hx : row[x]? = some c0)
    (hdead : ∀ (i : Nat) (c : Cell), row[i]? = some c → c.is_alive = false) :
    (listUpdate row x Cell.live).countP Cell.is_alive = 1 := by
  rw [listUpdate_eq_set Cell.live hx, countP_eq_countP_range, List.length_set]
  have hxlt : x < row.length := (List.getElem?_eq_some_iff.mp hx).1
  have hpt : ∀ i ∈ List.range row.length,
      ((row.set x (Cell.live c0))[i]?.elim false Cell.is_alive) = (i == x) := by
    intro i hi
    by_cases hix : i = x
    · subst hix
      rw [List.getElem?_set_eq_of_lt _ hxlt]
      simp [Cell.live, Cell.is_alive]
    · rw [List.getElem?_set_ne (fun hh => hix hh.symm)]
      cases hri : row[i]? with
      | none => simp [hix]
      | some ci => simp [hdead i ci hri, hix]
  rw [List.countP_congr (fun i hi => by rw [hpt i hi])]
  rw [← List.count_eq_countP]
  exact List.count_eq_one_of_mem (List.nodup_range _) (List.mem_range.mpr hxlt)

theorem sum_eq_one_of_single : ∀ (L : List Nat) (j : Nat), L[j]? = some 1 →
    (∀ i v : Nat, i ≠ j → L[i]? = some v → v = 0) → L.sum = 1 := by
  intro L
  induction L with
  | nil =>
    intro j h _
    exact Option.noConfusion h
  | cons a t ih =>
    intro j hj hother
    cases j with
    | zero =>
      rw [List.getElem?_cons_zero] at hj
      have ha := Option.some.inj hj
      have ht : t.sum = 0 := by
        apply List.sum_eq_zero
        intro v hv
        rw [List.mem_iff_getElem?] at hv
        obtain ⟨i, hi⟩ := hv
        exact hother (i + 1) v (by omega) (by rw [List.getElem?_cons_succ]; exact hi)
      rw [List.sum_cons, ht]
      omega
    | succ n =>
      rw [List.getElem?_cons_succ] at hj
      have ha : a = 0 := hother 0 a (by omega) List.getElem?_cons_zero
      rw [List.sum_cons, ha,
        ih n hj (fun i v hi hv => hother (i + 1) v (by omega)
          (by rw [List.getElem?_cons_succ]; exact hv))]

theorem mem_cellsList {g : Game} {e : Cell × Nat × Nat} (he : e ∈ g.cellsList) :
    ∃ j row i c, g.cells[j]? = some row ∧ row[i]? = some c
      ∧ e = (c, i % 65536, j % 65536) := by
  rw [cellsList_eq, List.mem_flatten] at he
  obtain ⟨sub, hsub, hesub⟩ := he
  rw [List.mem_iff_getElem?] at hsub
  obtain ⟨j, hj⟩ := hsub
  rw [List.getElem?_mapIdx] at hj
  cases hrow : g.cells[j]? with
  | none =>
    rw [hrow] at hj
    exact Option.noConfusion hj
  | some row =>
    rw [hrow, Option.map_some'] at hj
    have hsubeq := Option.some.inj hj
    rw [← hsubeq] at hesub
    rw [List.mem_iff_getElem?] at hesub
    obtain ⟨i, hi⟩ := hesub
    rw [List.getElem?_mapIdx] at hi
    cases hc : row[i]? with
    | none =>
      rw [hc] at hi
      exact Option.noConfusion hi
    | some c =>
      rw [hc, Option.map_some'] at hi
      exact ⟨j, row, i, c, hrow, hc, (Option.some.inj hi).symm⟩

theorem revive_allDead_enum (g : Game) (x y : Nat) (c0 : Cell)
    (hfind : g.find_cell_at_pos x y = some c0) (hdead : g.allDead)
    (hrect : g.rectangular) (hw : g.width ≤ 65535) (hh : g.height ≤ 65535) :
    (∀ e ∈ (g.revive_cell_at_pos x y).2.cellsList, e.1.is_alive = true ↔ e.2 = (x, y))
    ∧ (g.revive_cell_at_pos x y).2.cellsList.countP (fun e => e.1.is_alive) = 1 := by
  obtain ⟨rowy, hrowy, hcy⟩ := find_some_parts hfind
  have hst := revive_state_eq g x y c0 hfind
  have hcells2 : (g.revive_cell_at_pos x y).2.cells
      = listUpdate g.cells y (fun row => listUpdate row x Cell.live) := by
    rw [hst, with_cells_cells]
  have hh2 : g.cells.length ≤ 65535 := hh
  constructor
  · intro e he
    obtain ⟨j, row2, i, c, hrow2, hc2, heq⟩ := mem_cellsList he
    rw [hcells2] at hrow2
    have hjlt : j < g.cells.length := by
      have := (List.getElem?_eq_some_iff.mp hrow2).1
      rwa [listUpdate_length] at this
    by_cases hjy : y = j
    · subst hjy
      rw [getElem?_listUpdate_self hrowy] at hrow2
      have hrow2eq := Option.some.inj hrow2
      rw [← hrow2eq] at hc2
      have hrowylen : rowy.length = g.width := row_length_eq_width hrect hrowy
      have hilt : i < rowy.length := by
        have := (List.getElem?_eq_some_iff.mp hc2).1
        rwa [listUpdate_eq_set Cell.live hcy, List.length_set] at this
      have him : i % 65536 = i := Nat.mod_eq_of_lt (by omega)
      have hjm : y % 65536 = y := Nat.mod_eq_of_lt (by omega)
      rw [him, hjm] at heq
      by_cases hix : x = i
      · subst hix
        rw [getElem?_listUpdate_self hcy] at hc2
        have hceq := Option.some.inj hc2
        rw [heq, ← hceq]
        constructor
        · intro _
          rfl
        · intro _
          rfl
      · rw [getElem?_listUpdate_ne hix] at hc2
        have hcdead : c.is_alive = false := hdead i y c (by
          rw [find_cell_eq_bind, hrowy, Option.some_bind]
          exact hc2)
        rw [heq]
        constructor
        · intro hcontra
          rw [hcdead] at hcontra
          exact Bool.noConfusion hcontra
        · intro hpair
          exact absurd (Prod.ext_iff.mp hpair).1 (by
            intro hh
            exact hix (by simpa using hh.symm))
    · rw [getElem?_listUpdate_ne hjy] at hrow2
      have hcdead : c.is_alive = false := hdead i j c (by
        rw [find_cell_eq_bind, hrow2, Option.some_bind]
        exact hc2)
      have hrowlen : row2.length = g.width := row_length_eq_width hrect hrow2
      have hilt : i < row2.length := (List.getElem?_eq_some_iff.mp hc2).1
      have him : i % 65536 = i := Nat.mod_eq_of_lt (by omega)
      have hjm : j % 65536 = j := Nat.mod_eq_of_lt (by omega)
      rw [him, hjm] at heq
      rw [heq]
      constructor
      · intro hcontra
        rw [hcdead] at hcontra
        exact Bool.noConfusion hcontra
      · intro hpair
        exact absurd (Prod.ext_iff.mp hpair).2 (by
          intro hh
          exact hjy (by simpa using hh.symm))
  · rw [countP_alive_cellsList]
    apply sum_eq_one_of_single _ y
    · rw [List.getElem?_map, hcells2, getElem?_listUpdate_self hrowy, Option.map_some']
      congr 1
      exact set_row_countP_one hcy (fun i c hi => hdead i y c (by
        rw [find_cell_eq_bind, hrowy, Option.some_bind]
        exact hi))
    · intro i v hi hv
      rw [List.getElem?_map, hcells2, getElem?_listUpdate_ne (fun hh => hi hh.symm)] at hv
      cases hrowi : g.cells[i]? with
      | none =>
        rw [hrowi] at hv
        exact Option.noConfusion hv
      | some rowi =>
        rw [hrowi, Option.map_some'] at hv
        have hveq := Option.some.inj hv
        rw [← hveq]
        exact allDead_row_countP hdead hrowi

/-- C8: for an in-bounds position, reviving twice yields the same grid as
reviving once, killing twice the same as killing once, killing after
reviving leaves the cell at `(x, y)` Dead, and on an all-Dead grid reviving
`(x, y)` and then enumerating the cells shows exactly one Alive cell,
labelled `(x, y)`. -/
theorem revive_kill_algebra (g : Game) (x y : Nat) (c0 : Cell)
    (hfind : g.find_cell_at_pos x y = some c0) :
    ((g.revive_cell_at_pos x y).2.revive_cell_at_pos x y).2 = (g.revive_cell_at_pos x y).2
    ∧ ((g.kill_cell_at_pos x y).2.kill_cell_at_pos x y).2 = (g.kill_cell_at_pos x y).2
    ∧ (∃ c, ((g.revive_cell_at_pos x y).2.kill_cell_at_pos x y).2.find_cell_at_pos x y
        = some c ∧ c.is_alive = false)
    ∧ (g.allDead → g.rectangular → g.width ≤ 65535 → g.height ≤ 65535 →
        (∀ e ∈ (g.revive_cell_at_pos x y).2.cellsList,
          e.1.is_alive = true ↔ e.2 = (x, y))
        ∧ (g.revive_cell_at_pos x y).2.cellsList.countP (fun e => e.1.is_alive) = 1) := by
  refine ⟨revive_revive g x y, kill_kill g x y, ?_, ?_⟩
  · have hfind1 : (g.revive_cell_at_pos x y).2.find_cell_at_pos x y
        = some (Cell.live c0) := by
      rw [revive_state_eq g x y c0 hfind]
      exact update_find_self g x y Cell.live c0 hfind
    refine ⟨Cell.die (Cell.live c0), ?_, rfl⟩
    rw [kill_state_eq (g.revive_cell_at_pos x y).2 x y (Cell.live c0) hfind1]
    exact update_find_self _ x y Cell.die (Cell.live c0) hfind1
  · intro hdead hrect hw hh
    exact revive_allDead_enum g x y c0 hfind hdead hrect hw hh

/-- Witness for C8 at the 2-by-2 all-Dead grid and position (1, 0). -/
theorem revive_kill_algebra_witness :
    (((Game.new 2 2).revive_cell_at_pos 1 0).2.revive_cell_at_pos 1 0).2
        = ((Game.new 2 2).revive_cell_at_pos 1 0).2
    ∧ (((Game.new 2 2).kill_cell_at_pos 1 0).2.kill_cell_at_pos 1 0).2
        = ((Game.new 2 2).kill_cell_at_pos 1 0).2
    ∧ (∃ c, (((Game.new 2 2).revive_cell_at_pos 1 0).2.kill_cell_at_pos 1 0).2.find_cell_at_pos
          1 0 = some c ∧ c.is_alive = false)
    ∧ ((Game.new 2 2).allDead → (Game.new 2 2).rectangular
        → (Game.new 2 2).width ≤ 65535 → (Game.new 2 2).height ≤ 65535 →
        (∀ e ∈ ((Game.new 2 2).revive_cell_at_pos 1 0).2.cellsList,
          e.1.is_alive = true ↔ e.2 = (1, 0))
        ∧ ((Game.new 2 2).revive_cell_at_pos 1 0).2.cellsList.countP
            (fun e => e.1.is_alive) = 1) :=
  revive_kill_algebra (Game.new 2 2) 1 0 (Cell.new 1 0) (by decide)

/-- Witness for C2 at the 3-by-3 all-Dead grid and centre position (1, 1). -/
theorem neighbour_count_clamped_spec_witness :
    (Game.new 3 3).get_neighbours_count_at_pos 1 1
        = (Game.new 3 3).neighbourCountSpec 1 1
      ∧ (Game.new 3 3).neighbourCountSpec 1 1 ≤ 8 :=
  neighbour_count_clamped_spec (Game.new 3 3) 1 1 (by decide) (coordInv_new 3 3)
    (by decide) (by decide) (by decide) (by decide)
